import Mathlib

/-!
Verification development for the supply-shopping planner core:
unit-price normalization (src/backend/src/utils/priceCalculator.ts,
function calculatePricePerUnit) and shopping-list cost aggregation
(the GET /api/shopping-lists/:id handler of the shopping-lists router).

Numbers are modelled as exact rationals.  The source runs on JavaScript
doubles; all quantities relevant to these claims (DECIMAL(10,2) monetary
values, unit divisors of 1000 and 1000000, two-decimal rounding) are
decimal and are handled exactly here.  NaN and the two infinities, which
the price-validation claims mention, are modelled explicitly by the
JsNum type.  The ECMAScript toFixed tie rule (round half toward plus
infinity on the exact value) is modelled by round2.
-/

namespace ShoppingPlanner

/-! ## JavaScript string and number primitives -/

/-- Characters treated as whitespace by JavaScript: the WhiteSpace and
LineTerminator productions, shared by String.prototype.trim, the regex
class backslash-s, and parseFloat leading-space skipping. -/
def isJsSpace (c : Char) : Bool :=
  let n := c.toNat
  n = 32 || n = 9 || n = 10 || n = 13 || n = 11 || n = 12 ||
  n = 0xA0 || n = 0xFEFF || n = 0x1680 ||
  (0x2000 ≤ n && n ≤ 0x200A) || n = 0x2028 || n = 0x2029 ||
  n = 0x202F || n = 0x205F || n = 0x3000

/-- Drop JS whitespace from both ends of a character list. -/
def jsTrimList (cs : List Char) : List Char :=
  ((cs.dropWhile isJsSpace).reverse.dropWhile isJsSpace).reverse

/-- Model of String.prototype.trim. -/
def jsTrim (s : String) : String :=
  String.mk (jsTrimList s.toList)

/-- Lower-casing as used when comparing against the unit tokens of the
size regex.  The tokens are ASCII letters plus the u-umlaut of the token
stück, so only those mappings are material; on every candidate token
this agrees with String.prototype.toLowerCase and with case-insensitive
regex matching. -/
def jsToLower (c : Char) : Char :=
  if 'A' ≤ c && c ≤ 'Z' then Char.ofNat (c.toNat + 32)
  else if c = 'Ü' then 'ü'
  else c

/-- Value of a list of ASCII decimal digits. -/
def digitsToNat (ds : List Char) : ℕ :=
  ds.foldl (fun a c => 10 * a + (c.toNat - 48)) 0

/-- Exact value of an integer-part / fraction-part digit pair. -/
def decimalValue (ip fp : List Char) : ℚ :=
  (digitsToNat ip : ℚ) + (digitsToNat fp : ℚ) / (10 : ℚ) ^ fp.length

/-- A JavaScript number at the precision this development needs:
NaN, the two infinities, or an exact (rational) finite value. -/
inductive JsNum where
  | nan
  | posInf
  | negInf
  | fin (q : ℚ)
deriving DecidableEq

/-- Model of isNaN on a number. -/
def jsIsNaN : JsNum → Bool
  | .nan => true
  | _ => false

/-- Model of the comparison priceNum <= 0 (false on NaN, as in JS). -/
def jsNonPos : JsNum → Bool
  | .nan => false
  | .posInf => false
  | .negInf => true
  | .fin q => decide (q ≤ 0)

/-- Syntactic outcome of scanning a parseFloat input: no valid prefix,
a signed Infinity, or a signed decimal literal given by its digit lists
and decimal exponent. -/
inductive FloatScan where
  | noNum
  | inf (neg : Bool)
  | finite (neg : Bool) (ip fp : List Char) (e : ℤ)
deriving DecidableEq

/-- Exponent digits of a parseFloat input; an ill-formed exponent is not
part of the longest valid prefix, so it contributes zero. -/
def expDigits (neg : Bool) (cs : List Char) : ℤ :=
  let ds := cs.takeWhile Char.isDigit
  if ds.isEmpty then 0
  else if neg then -(digitsToNat ds : ℤ) else (digitsToNat ds : ℤ)

/-- Optional ExponentPart at the front of the remaining characters. -/
def parseExponent (cs : List Char) : ℤ :=
  match cs with
  | c :: r =>
      if c = 'e' || c = 'E' then
        match r with
        | '+' :: r₂ => expDigits false r₂
        | '-' :: r₂ => expDigits true r₂
        | _ => expDigits false r
      else 0
  | [] => 0

/-- Longest StrUnsignedDecimalLiteral prefix (non-Infinity case):
digits, an optional point with further digits, an optional exponent.
No digit before the exponent position means no valid prefix. -/
def scanUnsigned (neg : Bool) (cs : List Char) : FloatScan :=
  let ip := cs.takeWhile Char.isDigit
  let r₁ := cs.dropWhile Char.isDigit
  let fpr : List Char × List Char :=
    match r₁ with
    | '.' :: r₂ => (r₂.takeWhile Char.isDigit, r₂.dropWhile Char.isDigit)
    | _ => ([], r₁)
  if ip.isEmpty && fpr.1.isEmpty then .noNum
  else .finite neg ip fpr.1 (parseExponent fpr.2)

/-- Signed part of the parseFloat scan after the leading whitespace. -/
def scanSigned (neg : Bool) (cs : List Char) : FloatScan :=
  if "Infinity".toList.isPrefixOf cs then .inf neg
  else scanUnsigned neg cs

/-- Purely syntactic part of parseFloat: trim leading whitespace, read
an optional sign, then an Infinity or decimal-literal prefix. -/
def floatScan (s : String) : FloatScan :=
  match s.toList.dropWhile isJsSpace with
  | '+' :: r => scanSigned false r
  | '-' :: r => scanSigned true r
  | cs => scanSigned false cs

/-- Model of the global parseFloat applied to a string. -/
def jsParseFloat (s : String) : JsNum :=
  match floatScan s with
  | .noNum => .nan
  | .inf neg => if neg then .negInf else .posInf
  | .finite neg ip fp e =>
      .fin ((if neg then -1 else 1) * (decimalValue ip fp * (10 : ℚ) ^ e))

/-- The price argument of calculatePricePerUnit: a number (directly, or
produced by a Prisma Decimal through toNumber) or a string. -/
inductive PriceInput where
  | num (v : JsNum)
  | str (s : String)

/-- The price-coercion step of calculatePricePerUnit: strings go
through parseFloat, numbers and Decimal.toNumber results pass through. -/
def toPriceNum : PriceInput → JsNum
  | .str s => jsParseFloat s
  | .num v => v

/-- Division of the validated price by the normalized amount.  The
divisor is only ever a positive rational at the call site (guarded by
the check on normalizedAmount), where JS division maps finite to finite
and keeps the infinities. -/
def jsDivByPos (v : JsNum) (d : ℚ) : JsNum :=
  match v with
  | .fin q => .fin (q / d)
  | .posInf => .posInf
  | .negInf => .negInf
  | .nan => .nan

/-- Two-decimal rounding with the ECMAScript toFixed tie rule: the
integer n minimizing the distance of n / 100 to the value, ties to the
larger n. -/
def round2 (q : ℚ) : ℚ :=
  ((⌊q * 100 + 1 / 2⌋ : ℤ) : ℚ) / 100

/-- Model of parseFloat(x.toFixed(2)): finite values are rounded to two
decimals; NaN and the infinities print and re-parse to themselves. -/
def jsToFixed2Num : JsNum → JsNum
  | .fin q => .fin (round2 q)
  | v => v

/-! ## The unit-price normalizer (calculatePricePerUnit) -/

/-- Syntactic split of a size string along the regex anchored at both
ends: after trimming, one or more digits, an optional point with one or
more digits, optional whitespace, and the remainder is the unit
candidate.  Returns the digit lists and the raw unit characters.  No
unit token contains a digit, a point, or whitespace, so this
deterministic scan accepts exactly the strings the backtracking regex
accepts. -/
def sizeParts (s : String) : Option (List Char × List Char × List Char) :=
  let cs := jsTrimList s.toList
  let ip := cs.takeWhile Char.isDigit
  let r₁ := cs.dropWhile Char.isDigit
  if ip.isEmpty then none
  else
    match r₁ with
    | '.' :: r₂ =>
        let fp := r₂.takeWhile Char.isDigit
        if fp.isEmpty then none
        else some (ip, fp, (r₂.dropWhile Char.isDigit).dropWhile isJsSpace)
    | _ => some (ip, [], r₁.dropWhile isJsSpace)

/-- Lower-cased expansion of the unit alternation of the regex:
kg, g, mg, l, L, ml, mL, piece(s), pc(s), pc, st, stk, stück, x,
count, unit(s), matched case-insensitively. -/
def unitTokens : List String :=
  ["kg", "g", "mg", "l", "ml", "piece", "pieces", "pcs", "pc", "st",
   "stk", "stück", "x", "count", "unit", "units"]

/-- Full size-regex match: exact amount plus lower-cased unit token, or
none when the trimmed string does not match the anchored pattern.  The
amount is the exact value of the captured digits, matching
parseFloat(match[1]) on that restricted digit language. -/
def matchSize (s : String) : Option (ℚ × String) :=
  match sizeParts s with
  | none => none
  | some (ip, fp, rest) =>
      let unit := String.mk (rest.map jsToLower)
      if unit ∈ unitTokens then some (decimalValue ip fp, unit) else none

/-- The count-unit list of the source if-chain. -/
def countTokens : List String :=
  ["piece", "pieces", "pcs", "pc", "st", "stk", "stück", "x", "count",
   "unit", "units"]

/-- The unit if-chain of the source: amount in base units per unit
class (kg for weight, L for volume, item for count). -/
def normalizedAmountOf (unit : String) (amount : ℚ) : Option ℚ :=
  if unit = "kg" then some amount
  else if unit = "g" then some (amount / 1000)
  else if unit = "mg" then some (amount / 1000000)
  else if unit = "l" then some amount
  else if unit = "ml" then some (amount / 1000)
  else if unit ∈ countTokens then some amount
  else none

/-- Embedding of calculatePricePerUnit from priceCalculator.ts.  The
size argument models string or null or undefined as Option String; the
falsy check on size accepts exactly none and the empty string, then
the trimmed-empty check runs.  The result models number or null; the
function is total, modelling the never-throws contract. -/
def calculatePricePerUnit (size : Option String) (price : PriceInput) :
    Option JsNum :=
  match size with
  | none => none
  | some s =>
    if s = "" ∨ jsTrim s = "" then none
    else
      let priceNum := toPriceNum price
      if jsIsNaN priceNum || jsNonPos priceNum then none
      else
        match matchSize s with
        | none => none
        | some (amount, unit) =>
          match normalizedAmountOf unit amount with
          | none => none
          | some normalizedAmount =>
            if normalizedAmount ≤ 0 then none
            else some (jsToFixed2Num (jsDivByPos priceNum normalizedAmount))

/-! ## The shopping-list aggregator

Embedding of the item-grouping loop of the GET /api/shopping-lists/:id
handler.  The items come from the database with the product and its
shop included; the columns price and actual_price are DECIMAL(10,2),
surfaced by the ORM as Decimal objects (or null for actual_price), so
they are modelled as exact rationals (Option on the nullable column).
The truthiness test on item.actualPrice in the source sees a Decimal
object or null, and an object is truthy whatever its numeric value, so
that test is exactly a null test here.  The status column is free-form
text at this layer and is modelled as a string. -/

/-- A shop row as included with a product. -/
structure Shop where
  id : String
  name : String
  address : Option String
deriving DecidableEq

/-- A product row with its owning shop included. -/
structure Product where
  id : String
  name : String
  size : Option String
  price : ℚ
  pricePerUnit : Option ℚ
  shopId : String
  shop : Shop
deriving DecidableEq

/-- A shopping-list item row with its product included. -/
structure ShoppingListItem where
  id : String
  productId : String
  status : String
  actualPrice : Option ℚ
  notes : Option String
  product : Product
deriving DecidableEq

/-- The product projection used in the formatted response item. -/
structure FormattedProduct where
  id : String
  name : String
  size : Option String
  price : ℚ
  pricePerUnit : Option ℚ
deriving DecidableEq

/-- The per-item response shape pushed into a shop group. -/
structure FormattedItem where
  id : String
  productId : String
  status : String
  actualPrice : Option ℚ
  notes : Option String
  product : FormattedProduct
deriving DecidableEq

/-- The formattedItem construction of the loop body. -/
def formatItem (item : ShoppingListItem) : FormattedItem :=
  { id := item.id
    productId := item.productId
    status := item.status
    actualPrice := item.actualPrice
    notes := item.notes
    product :=
      { id := item.product.id
        name := item.product.name
        size := item.product.size
        price := item.product.price
        pricePerUnit := item.product.pricePerUnit } }

/-- The accumulating per-shop record (interface ShopData of the source). -/
structure ShopData where
  shop : Shop
  items : List FormattedItem
  expectedTotal : ℚ
  actualTotal : ℚ
deriving DecidableEq

/-- The itemsByShop Map, modelled as an association list in insertion
order, exactly the iteration order of a JS Map. -/
abbrev ShopMap := List (String × ShopData)

/-- Model of itemsByShop.has. -/
def mapHas (m : ShopMap) (k : String) : Bool :=
  m.any (fun kv => kv.1 == k)

/-- In-place update of the entry at a key, as the source mutates the
object returned by itemsByShop.get; entry order is unchanged. -/
def mapUpdate (m : ShopMap) (k : String) (f : ShopData → ShopData) : ShopMap :=
  m.map (fun kv => if kv.1 = k then (kv.1, f kv.2) else kv)

/-- The price used for the actual total of a bought item: actualPrice
when non-null, else the product price (the fallback of the source). -/
def boughtContribution (item : ShoppingListItem) : ℚ :=
  match item.actualPrice with
  | some a => a
  | none => item.product.price

/-- Actual-total contribution of one item: the bought fallback price
when the status is the string bought, zero otherwise. -/
def itemContribution (item : ShoppingListItem) : ℚ :=
  if item.status = "bought" then boughtContribution item else 0

/-- The loop-body mutations on the shop record of the current item:
push the formatted item, add the product price to expectedTotal, and,
only when the status is bought, add the actual-or-product price to
actualTotal. -/
def applyItem (item : ShoppingListItem) (sd : ShopData) : ShopData :=
  let withItem :=
    { sd with
      items := sd.items ++ [formatItem item]
      expectedTotal := sd.expectedTotal + item.product.price }
  if item.status = "bought" then
    { withItem with
      actualTotal := withItem.actualTotal + boughtContribution item }
  else withItem

/-- The loop state: the insertion-ordered map plus the two running
overall totals. -/
structure LoopState where
  itemsByShop : ShopMap
  overallExpectedTotal : ℚ
  overallActualTotal : ℚ
deriving DecidableEq

/-- One iteration of the forEach body: create the group on first sight
of the shop key (appended at the end, as a JS Map insertion), then
update it and the overall totals. -/
def processItem (st : LoopState) (item : ShoppingListItem) : LoopState :=
  let key := item.product.shopId
  let m₀ :=
    if mapHas st.itemsByShop key then st.itemsByShop
    else st.itemsByShop ++
      [(key, { shop := item.product.shop, items := [],
               expectedTotal := 0, actualTotal := 0 })]
  { itemsByShop := mapUpdate m₀ key (applyItem item)
    overallExpectedTotal := st.overallExpectedTotal + item.product.price
    overallActualTotal :=
      if item.status = "bought" then
        st.overallActualTotal + boughtContribution item
      else st.overallActualTotal }

/-- The forEach over the list items, in input order. -/
def processItems : List ShoppingListItem → LoopState → LoopState
  | [], st => st
  | item :: rest, st => processItems rest (processItem st item)

/-- A finished shop group of the response: shop projection, items,
totals rounded to two decimals at the end, and the item count. -/
structure ShopGroupOut where
  shop : Shop
  items : List FormattedItem
  expectedTotal : ℚ
  actualTotal : ℚ
  itemCount : ℕ
deriving DecidableEq

/-- The aggregation part of the response body. -/
structure AggregationResult where
  itemsByShop : List ShopGroupOut
  overallExpectedTotal : ℚ
  overallActualTotal : ℚ
  totalItems : ℕ
deriving DecidableEq

/-- The per-group finalization of itemsByShopArray: project the shop
fields, round both totals once, and report the item count. -/
def finalizeGroup (sd : ShopData) : ShopGroupOut :=
  { shop := { id := sd.shop.id, name := sd.shop.name, address := sd.shop.address }
    items := sd.items
    expectedTotal := round2 sd.expectedTotal
    actualTotal := round2 sd.actualTotal
    itemCount := sd.items.length }

/-- Embedding of the whole aggregation: run the loop from the empty
map and zero totals, convert the map to an array, round the overall
totals once, and report the input length as totalItems. -/
def aggregate (items : List ShoppingListItem) : AggregationResult :=
  let st := processItems items { itemsByShop := [], overallExpectedTotal := 0, overallActualTotal := 0 }
  { itemsByShop := st.itemsByShop.map (fun kv => finalizeGroup kv.2)
    overallExpectedTotal := round2 st.overallExpectedTotal
    overallActualTotal := round2 st.overallActualTotal
    totalItems := items.length }

/-! ## Specification-side descriptions used in theorem statements -/

/-- The items of one shop, in input order. -/
def itemsOfShop (k : String) (items : List ShoppingListItem) :
    List ShoppingListItem :=
  items.filter (fun it => it.product.shopId == k)

/-- The items whose status is exactly the string bought. -/
def boughtItems (items : List ShoppingListItem) : List ShoppingListItem :=
  items.filter (fun it => it.status == "bought")

/-- Sum of product prices, ignoring status. -/
def expectedSum (items : List ShoppingListItem) : ℚ :=
  (items.map (fun it => it.product.price)).sum

/-- Sum of actual-or-product prices over the bought items. -/
def actualSum (items : List ShoppingListItem) : ℚ :=
  ((boughtItems items).map boughtContribution).sum

/-- Distinct shop keys of the items that are not yet in dom, in order
of first appearance. -/
def newKeys : List ShoppingListItem → List String → List String
  | [], _ => []
  | it :: rest, dom =>
      if it.product.shopId ∈ dom then newKeys rest dom
      else it.product.shopId :: newKeys rest (it.product.shopId :: dom)

/-- Distinct shop keys of the items in order of first appearance. -/
def shopKeys (items : List ShoppingListItem) : List String :=
  newKeys items []

/-- The shop record attached to the first item carrying a key. -/
def firstShopFor (k : String) (items : List ShoppingListItem) : Shop :=
  ((items.find? (fun it => it.product.shopId == k)).map
    (fun it => it.product.shop)).getD { id := "", name := "", address := none }

/-- The shop group a key should end up with: the shop of the first
item with that key, the formatted items of that shop in order, and the
unrounded totals over those items. -/
def specGroup (k : String) (items : List ShoppingListItem) : ShopData :=
  { shop := firstShopFor k items
    items := (itemsOfShop k items).map formatItem
    expectedTotal := expectedSum (itemsOfShop k items)
    actualTotal := actualSum (itemsOfShop k items) }

/-- Extension of an existing map entry by the items of its key. -/
def extendEntry (items : List ShoppingListItem) (kv : String × ShopData) :
    String × ShopData :=
  (kv.1,
    { shop := kv.2.shop
      items := kv.2.items ++ (itemsOfShop kv.1 items).map formatItem
      expectedTotal := kv.2.expectedTotal + expectedSum (itemsOfShop kv.1 items)
      actualTotal := kv.2.actualTotal + actualSum (itemsOfShop kv.1 items) })

/-! ## Concrete data for the worked examples -/

/-- A shop used by the concrete examples. -/
def demoShop : Shop := { id := "shop-1", name := "Shop One", address := none }

/-- A second shop record carrying the same identifier but different
display fields, for the first-record-wins example. -/
def demoShopB : Shop := { id := "shop-1", name := "Shop Two", address := some "Elsewhere" }

/-- A fully explicit item constructor for the concrete examples. -/
def mkItem (sh : Shop) (shopId : String) (price : ℚ) (status : String)
    (actualPrice : Option ℚ) : ShoppingListItem :=
  { id := "item"
    productId := "prod"
    status := status
    actualPrice := actualPrice
    notes := none
    product :=
      { id := "prod"
        name := "Product"
        size := none
        price := price
        pricePerUnit := none
        shopId := shopId
        shop := sh } }

/-- The three bought items priced 1.11, 2.22 and 3.33 of the rounding
example. -/
def roundingItems : List ShoppingListItem :=
  [mkItem demoShop "shop-1" (111 / 100) "bought" none,
   mkItem demoShop "shop-1" (222 / 100) "bought" none,
   mkItem demoShop "shop-1" (333 / 100) "bought" none]

/-- The mixed-status items priced 2.00 bought, 3.00 pending and 4.00
not bought of the expected-total example. -/
def mixedItems : List ShoppingListItem :=
  [mkItem demoShop "shop-1" 2 "bought" none,
   mkItem demoShop "shop-1" 3 "pending" none,
   mkItem demoShop "shop-1" 4 "not_bought" none]

/-! ## Helper lemmas: rounding -/

lemma round2_eq_of (q : ℚ) (n : ℤ) (h₁ : (n : ℚ) ≤ q * 100 + 1 / 2)
    (h₂ : q * 100 + 1 / 2 < (n : ℚ) + 1) : round2 q = (n : ℚ) / 100 := by
  rw [round2, Int.floor_eq_iff.mpr ⟨h₁, by exact_mod_cast h₂⟩]

lemma round2_nonneg {q : ℚ} (h : 0 ≤ q) : 0 ≤ round2 q := by
  have : (0 : ℚ) ≤ q * 100 + 1 / 2 := by linarith
  have hf : 0 ≤ ⌊q * 100 + 1 / 2⌋ := Int.floor_nonneg.mpr this
  have : (0 : ℚ) ≤ (⌊q * 100 + 1 / 2⌋ : ℚ) := by exact_mod_cast hf
  rw [round2]
  positivity

lemma round2_pos_iff (q : ℚ) : 0 < round2 q ↔ 1 / 200 ≤ q := by
  have h100 : (0 : ℚ) < 100 := by norm_num
  rw [round2, lt_div_iff₀ h100, zero_mul, Int.cast_pos,
    show (0 : ℤ) < ⌊q * 100 + 1 / 2⌋ ↔ (1 : ℤ) ≤ ⌊q * 100 + 1 / 2⌋ from
      Int.lt_iff_add_one_le.trans (by rw [zero_add]),
    Int.le_floor]
  constructor
  · intro h
    push_cast at h
    linarith
  · intro h
    push_cast
    linarith

/-! ## Helper lemmas: the normalizer -/

lemma sizeParts_ne_empty {s : String} {x} (h : sizeParts s = some x) :
    ¬ (s = "" ∨ jsTrim s = "") := by
  rintro (rfl | he)
  · simp [sizeParts, jsTrimList] at h
  · have hl : jsTrimList s.data = [] := by
      have := congrArg String.data he
      simpa [jsTrim, String.toList] using this
    simp [sizeParts, String.toList, hl] at h

lemma matchSize_sizeParts {s : String} {x} (h : matchSize s = some x) :
    ∃ y, sizeParts s = some y := by
  rw [matchSize] at h
  cases hsp : sizeParts s with
  | none => rw [hsp] at h; exact absurd h (by simp)
  | some y => exact ⟨y, rfl⟩

lemma matchSize_ne_empty {s : String} {x} (h : matchSize s = some x) :
    ¬ (s = "" ∨ jsTrim s = "") := by
  obtain ⟨y, hy⟩ := matchSize_sizeParts h
  exact sizeParts_ne_empty hy

lemma matchSize_none_of_not_token {s : String} {ip fp rest : List Char}
    (h : sizeParts s = some (ip, fp, rest))
    (hu : String.mk (rest.map jsToLower) ∉ unitTokens) :
    matchSize s = none := by
  rw [matchSize, h]
  exact if_neg hu

/-- With a syntactically valid size and an accepted price, the source
returns the rounded division of the price by the normalized amount. -/
lemma calculatePricePerUnit_validPrice {s : String} {p : PriceInput}
    {a na : ℚ} {u : String}
    (h₁ : matchSize s = some (a, u))
    (h₂ : normalizedAmountOf u a = some na)
    (h₃ : (jsIsNaN (toPriceNum p) || jsNonPos (toPriceNum p)) = false)
    (h₄ : 0 < na) :
    calculatePricePerUnit (some s) p =
      some (jsToFixed2Num (jsDivByPos (toPriceNum p) na)) := by
  rw [calculatePricePerUnit, if_neg (matchSize_ne_empty h₁)]
  simp only [h₃, Bool.false_eq_true, if_false, h₁, h₂,
    if_neg (not_le.mpr h₄)]

lemma calculatePricePerUnit_eval {s : String} {q a na : ℚ} {u : String}
    (h₁ : matchSize s = some (a, u))
    (h₂ : normalizedAmountOf u a = some na)
    (h₃ : 0 < q) (h₄ : 0 < na) :
    calculatePricePerUnit (some s) (.num (.fin q)) =
      some (.fin (round2 (q / na))) := by
  have hval : (jsIsNaN (toPriceNum (.num (.fin q))) ||
      jsNonPos (toPriceNum (.num (.fin q)))) = false := by
    simp [toPriceNum, jsIsNaN, jsNonPos, not_le.mpr h₃]
  rw [calculatePricePerUnit_validPrice h₁ h₂ hval h₄]
  rfl

lemma calculatePricePerUnit_of_matchSize_none {s : String}
    (h : matchSize s = none) (p : PriceInput) :
    calculatePricePerUnit (some s) p = none := by
  simp only [calculatePricePerUnit]
  by_cases h₀ : s = "" ∨ jsTrim s = ""
  · rw [if_pos h₀]
  · rw [if_neg h₀]
    cases hb : (jsIsNaN (toPriceNum p) || jsNonPos (toPriceNum p)) with
    | true => simp
    | false => simp [h]

lemma calculatePricePerUnit_invalidPrice {p : PriceInput}
    (h : (jsIsNaN (toPriceNum p) || jsNonPos (toPriceNum p)) = true)
    (sz : Option String) :
    calculatePricePerUnit sz p = none := by
  cases sz with
  | none => rfl
  | some s =>
    simp only [calculatePricePerUnit]
    by_cases h₀ : s = "" ∨ jsTrim s = ""
    · rw [if_pos h₀]
    · rw [if_neg h₀, h]
      simp

/-- Inversion: a non-null result pins down every stage of the source
pipeline. -/
lemma calculatePricePerUnit_some_inv {sz : Option String} {p : PriceInput}
    {r : JsNum} (h : calculatePricePerUnit sz p = some r) :
    ∃ s a u na, sz = some s ∧ matchSize s = some (a, u) ∧
      normalizedAmountOf u a = some na ∧ 0 < na ∧
      (jsIsNaN (toPriceNum p) || jsNonPos (toPriceNum p)) = false ∧
      r = jsToFixed2Num (jsDivByPos (toPriceNum p) na) := by
  cases sz with
  | none => exact absurd h (by simp [calculatePricePerUnit])
  | some s =>
    simp only [calculatePricePerUnit] at h
    split at h
    next => exact absurd h (by simp)
    next h₀ =>
      split at h
      next hb => exact absurd h (by simp)
      next hb =>
        split at h
        next hm => exact absurd h (by simp)
        next a u hm =>
          split at h
          next hn => exact absurd h (by simp)
          next na hn =>
            split at h
            next hle => exact absurd h (by simp)
            next hle =>
              refine ⟨s, a, u, na, rfl, hm, hn, not_le.mp hle, ?_, ?_⟩
              · simpa using hb
              · exact (Option.some_inj.mp h).symm

/-- With a nonempty size and an accepted price, the result is the
source pipeline over the regex match and the unit chain. -/
lemma calculatePricePerUnit_stages (s : String) (p : PriceInput)
    (h₀ : ¬ (s = "" ∨ jsTrim s = ""))
    (hb : (jsIsNaN (toPriceNum p) || jsNonPos (toPriceNum p)) = false) :
    calculatePricePerUnit (some s) p =
      match matchSize s with
      | none => none
      | some (a, u) =>
          match normalizedAmountOf u a with
          | none => none
          | some na =>
              if na ≤ 0 then none
              else some (jsToFixed2Num (jsDivByPos (toPriceNum p) na)) := by
  simp only [calculatePricePerUnit, if_neg h₀, hb, Bool.false_eq_true, if_false]

/-- For a positive finite price, the whole function is the match on the
size pattern followed by the unit conversion and the rounded division. -/
lemma calculatePricePerUnit_pos_price (s : String) {q : ℚ} (h : 0 < q) :
    calculatePricePerUnit (some s) (.num (.fin q)) =
      match matchSize s with
      | none => none
      | some (a, u) =>
          match normalizedAmountOf u a with
          | none => none
          | some na => if na ≤ 0 then none else some (.fin (round2 (q / na))) := by
  cases hm : matchSize s with
  | none => rw [calculatePricePerUnit_of_matchSize_none hm]
  | some au =>
    obtain ⟨a, u⟩ := au
    have hb : (jsIsNaN (toPriceNum (.num (.fin q))) ||
        jsNonPos (toPriceNum (.num (.fin q)))) = false := by
      simp [toPriceNum, jsIsNaN, jsNonPos, not_le.mpr h]
    rw [calculatePricePerUnit_stages s _ (matchSize_ne_empty hm) hb, hm]
    simp only [toPriceNum, jsDivByPos, jsToFixed2Num]

/-- Rounding a value already on the two-decimal grid is the identity. -/
lemma round2_two_decimals (n : ℤ) : round2 ((n : ℚ) / 100) = (n : ℚ) / 100 := by
  have hq : ((n : ℚ) / 100) * 100 = (n : ℚ) := by field_simp
  refine round2_eq_of _ n ?_ ?_ <;> rw [hq] <;> linarith

/-- Rounding fixes any rational whose value times 100 is an integer. -/
lemma round2_eq_self {q : ℚ} (n : ℤ) (hq : q * 100 = (n : ℚ)) : round2 q = q := by
  have h : q = (n : ℚ) / 100 := by
    rw [eq_div_iff (by norm_num : (100 : ℚ) ≠ 0)]
    exact hq
  rw [h]
  exact round2_two_decimals n

/-! ## Worked examples of the normalizer -/

lemma calc_ex_1kg :
    calculatePricePerUnit (some "1kg") (.num (.fin (5 / 2))) = some (.fin (5 / 2)) := by
  have hd : decimalValue ['1'] [] = 1 := by
    rw [decimalValue, show digitsToNat ['1'] = 1 from rfl,
        show digitsToNat ([] : List Char) = 0 from rfl]
    norm_num
  have h₁ : matchSize "1kg" = some ((1 : ℚ), "kg") := by
    rw [show matchSize "1kg" = some (decimalValue ['1'] [], "kg") from rfl, hd]
  rw [calculatePricePerUnit_eval h₁ rfl (by norm_num) (by norm_num),
      round2_eq_self 250 (by norm_num)]
  norm_num

lemma calc_ex_500g :
    calculatePricePerUnit (some "500g") (.num (.fin (6 / 5))) = some (.fin (12 / 5)) := by
  have hd : decimalValue ['5', '0', '0'] [] = 500 := by
    rw [decimalValue, show digitsToNat ['5', '0', '0'] = 500 from rfl,
        show digitsToNat ([] : List Char) = 0 from rfl]
    norm_num
  have h₁ : matchSize "500g" = some ((500 : ℚ), "g") := by
    rw [show matchSize "500g" = some (decimalValue ['5', '0', '0'] [], "g") from rfl, hd]
  have h₂ : normalizedAmountOf "g" (500 : ℚ) = some (1 / 2) := by
    rw [show normalizedAmountOf "g" (500 : ℚ) = some ((500 : ℚ) / 1000) from rfl,
        show (500 : ℚ) / 1000 = 1 / 2 by norm_num]
  rw [calculatePricePerUnit_eval h₁ h₂ (by norm_num) (by norm_num),
      round2_eq_self 240 (by norm_num)]
  norm_num

lemma calc_ex_500ml :
    calculatePricePerUnit (some "500ml") (.num (.fin (9 / 5))) = some (.fin (18 / 5)) := by
  have hd : decimalValue ['5', '0', '0'] [] = 500 := by
    rw [decimalValue, show digitsToNat ['5', '0', '0'] = 500 from rfl,
        show digitsToNat ([] : List Char) = 0 from rfl]
    norm_num
  have h₁ : matchSize "500ml" = some ((500 : ℚ), "ml") := by
    rw [show matchSize "500ml" = some (decimalValue ['5', '0', '0'] [], "ml") from rfl, hd]
  have h₂ : normalizedAmountOf "ml" (500 : ℚ) = some (1 / 2) := by
    rw [show normalizedAmountOf "ml" (500 : ℚ) = some ((500 : ℚ) / 1000) from rfl,
        show (500 : ℚ) / 1000 = 1 / 2 by norm_num]
  rw [calculatePricePerUnit_eval h₁ h₂ (by norm_num) (by norm_num),
      round2_eq_self 360 (by norm_num)]
  norm_num

lemma calc_ex_6pieces :
    calculatePricePerUnit (some "6 pieces") (.num (.fin (18 / 5))) = some (.fin (3 / 5)) := by
  have hd : decimalValue ['6'] [] = 6 := by
    rw [decimalValue, show digitsToNat ['6'] = 6 from rfl,
        show digitsToNat ([] : List Char) = 0 from rfl]
    norm_num
  have h₁ : matchSize "6 pieces" = some ((6 : ℚ), "pieces") := by
    rw [show matchSize "6 pieces" = some (decimalValue ['6'] [], "pieces") from rfl, hd]
  rw [calculatePricePerUnit_eval h₁ rfl (by norm_num) (by norm_num),
      round2_eq_self 60 (by norm_num)]
  norm_num

lemma calc_ex_decimal_amount :
    calculatePricePerUnit (some "1.5kg") (.num (.fin (15 / 4))) = some (.fin (5 / 2)) := by
  have hd : decimalValue ['1'] ['5'] = 3 / 2 := by
    rw [decimalValue, show digitsToNat ['1'] = 1 from rfl,
        show digitsToNat ['5'] = 5 from rfl]
    norm_num
  have h₁ : matchSize "1.5kg" = some ((3 / 2 : ℚ), "kg") := by
    rw [show matchSize "1.5kg" = some (decimalValue ['1'] ['5'], "kg") from rfl, hd]
  rw [calculatePricePerUnit_eval h₁ rfl (by norm_num) (by norm_num),
      round2_eq_self 250 (by norm_num)]
  norm_num

lemma calc_ex_uppercase :
    calculatePricePerUnit (some "1KG") (.num (.fin (5 / 2))) = some (.fin (5 / 2)) := by
  have hd : decimalValue ['1'] [] = 1 := by
    rw [decimalValue, show digitsToNat ['1'] = 1 from rfl,
        show digitsToNat ([] : List Char) = 0 from rfl]
    norm_num
  have h₁ : matchSize "1KG" = some ((1 : ℚ), "kg") := by
    rw [show matchSize "1KG" = some (decimalValue ['1'] [], "kg") from rfl, hd]
  rw [calculatePricePerUnit_eval h₁ rfl (by norm_num) (by norm_num),
      round2_eq_self 250 (by norm_num)]
  norm_num

lemma calc_ex_half_kg :
    calculatePricePerUnit (some "0.5kg") (.num (.fin 1)) = some (.fin 2) := by
  have hd : decimalValue ['0'] ['5'] = 1 / 2 := by
    rw [decimalValue, show digitsToNat ['0'] = 0 from rfl,
        show digitsToNat ['5'] = 5 from rfl]
    norm_num
  have h₁ : matchSize "0.5kg" = some ((1 / 2 : ℚ), "kg") := by
    rw [show matchSize "0.5kg" = some (decimalValue ['0'] ['5'], "kg") from rfl, hd]
  rw [calculatePricePerUnit_eval h₁ rfl (by norm_num) (by norm_num),
      round2_eq_self 200 (by norm_num)]
  norm_num

lemma calc_ex_tiny_unit_price :
    calculatePricePerUnit (some "1000x") (.num (.fin 1)) = some (.fin 0) := by
  have hd : decimalValue ['1', '0', '0', '0'] [] = 1000 := by
    rw [decimalValue, show digitsToNat ['1', '0', '0', '0'] = 1000 from rfl,
        show digitsToNat ([] : List Char) = 0 from rfl]
    norm_num
  have h₁ : matchSize "1000x" = some ((1000 : ℚ), "x") := by
    rw [show matchSize "1000x" = some (decimalValue ['1', '0', '0', '0'] [], "x") from rfl, hd]
  rw [calculatePricePerUnit_eval h₁ rfl (by norm_num) (by norm_num),
      round2_eq_of ((1 : ℚ) / 1000) 0 (by norm_num) (by norm_num)]
  norm_num

lemma calc_ex_posInf :
    calculatePricePerUnit (some "1kg") (.num .posInf) = some JsNum.posInf := by
  have hd : decimalValue ['1'] [] = 1 := by
    rw [decimalValue, show digitsToNat ['1'] = 1 from rfl,
        show digitsToNat ([] : List Char) = 0 from rfl]
    norm_num
  have h₁ : matchSize "1kg" = some ((1 : ℚ), "kg") := by
    rw [show matchSize "1kg" = some (decimalValue ['1'] [], "kg") from rfl, hd]
  rw [calculatePricePerUnit_validPrice h₁ rfl
    (rfl : (jsIsNaN (toPriceNum (.num .posInf)) ||
      jsNonPos (toPriceNum (.num .posInf))) = false) (by norm_num)]
  rfl

/-! ## Helper lemmas: the aggregator -/

lemma itemsOfShop_nil (k : String) : itemsOfShop k [] = [] := rfl

lemma itemsOfShop_cons (k : String) (it : ShoppingListItem)
    (l : List ShoppingListItem) :
    itemsOfShop k (it :: l) =
      if it.product.shopId = k then it :: itemsOfShop k l
      else itemsOfShop k l := by
  simp only [itemsOfShop, List.filter_cons, beq_iff_eq]

lemma expectedSum_nil : expectedSum [] = 0 := rfl

lemma expectedSum_cons (it : ShoppingListItem) (l : List ShoppingListItem) :
    expectedSum (it :: l) = it.product.price + expectedSum l := by
  simp [expectedSum]

lemma actualSum_nil : actualSum [] = 0 := rfl

lemma actualSum_cons (it : ShoppingListItem) (l : List ShoppingListItem) :
    actualSum (it :: l) = itemContribution it + actualSum l := by
  simp only [actualSum, boughtItems, List.filter_cons, itemContribution, beq_iff_eq]
  by_cases h : it.status = "bought" <;> simp [h]

lemma mapHas_iff (m : ShopMap) (k : String) :
    mapHas m k = true ↔ k ∈ m.map Prod.fst := by
  simp only [mapHas, List.any_eq_true, List.mem_map, beq_iff_eq]

lemma mapUpdate_fst (m : ShopMap) (k : String) (f : ShopData → ShopData) :
    (mapUpdate m k f).map Prod.fst = m.map Prod.fst := by
  rw [mapUpdate, List.map_map]
  apply List.map_congr_left
  intro kv _
  by_cases h : kv.1 = k <;> simp [h]

lemma mapUpdate_append (m₁ m₂ : ShopMap) (k : String) (f : ShopData → ShopData) :
    mapUpdate (m₁ ++ m₂) k f = mapUpdate m₁ k f ++ mapUpdate m₂ k f := by
  simp [mapUpdate]

lemma mapUpdate_of_not_mem {m : ShopMap} {k : String} (f : ShopData → ShopData)
    (h : k ∉ m.map Prod.fst) : mapUpdate m k f = m := by
  conv_rhs => rw [← List.map_id m]
  rw [mapUpdate]
  apply List.map_congr_left
  intro kv hkv
  have : kv.1 ≠ k := fun he => h (he ▸ List.mem_map_of_mem Prod.fst hkv)
  simp [this]

lemma newKeys_congr (l : List ShoppingListItem) :
    ∀ d₁ d₂ : List String, (∀ x, x ∈ d₁ ↔ x ∈ d₂) →
      newKeys l d₁ = newKeys l d₂ := by
  induction l with
  | nil => intro d₁ d₂ _; rfl
  | cons it rest ih =>
    intro d₁ d₂ hd
    rw [newKeys, newKeys]
    by_cases h : it.product.shopId ∈ d₁
    · rw [if_pos h, if_pos ((hd _).mp h)]
      exact ih d₁ d₂ hd
    · rw [if_neg h, if_neg (fun hc => h ((hd _).mpr hc))]
      refine congrArg _ (ih _ _ ?_)
      intro x
      simp only [List.mem_cons]
      exact or_congr Iff.rfl (hd x)

lemma newKeys_not_mem {k : String} :
    ∀ (l : List ShoppingListItem) (dom : List String),
      k ∈ newKeys l dom → k ∉ dom := by
  intro l
  induction l with
  | nil => intro dom h; simp [newKeys] at h
  | cons it rest ih =>
    intro dom h
    rw [newKeys] at h
    by_cases hm : it.product.shopId ∈ dom
    · rw [if_pos hm] at h
      exact ih dom h
    · rw [if_neg hm] at h
      rcases List.mem_cons.mp h with rfl | hmem
      · exact hm
      · intro hc
        exact ih _ hmem (List.mem_cons_of_mem _ hc)

lemma mem_newKeys {k : String} :
    ∀ (l : List ShoppingListItem) (dom : List String),
      k ∈ newKeys l dom ↔
        (k ∈ l.map (fun it => it.product.shopId) ∧ k ∉ dom) := by
  intro l
  induction l with
  | nil => intro dom; simp [newKeys]
  | cons it rest ih =>
    intro dom
    rw [newKeys]
    by_cases hm : it.product.shopId ∈ dom
    · rw [if_pos hm, ih]
      constructor
      · rintro ⟨h₁, h₂⟩
        exact ⟨by rw [List.map_cons]; exact List.mem_cons_of_mem _ h₁, h₂⟩
      · rintro ⟨h₁, h₂⟩
        rw [List.map_cons] at h₁
        rcases List.mem_cons.mp h₁ with rfl | h₁
        · exact absurd hm h₂
        · exact ⟨h₁, h₂⟩
    · rw [if_neg hm]
      constructor
      · intro h
        rcases List.mem_cons.mp h with rfl | h
        · exact ⟨by rw [List.map_cons]; exact List.mem_cons_self _ _, hm⟩
        · obtain ⟨h₁, h₂⟩ := (ih _).mp h
          refine ⟨by rw [List.map_cons]; exact List.mem_cons_of_mem _ h₁, ?_⟩
          intro hc
          exact h₂ (List.mem_cons_of_mem _ hc)
      · rintro ⟨h₁, h₂⟩
        rw [List.map_cons] at h₁
        rcases List.mem_cons.mp h₁ with rfl | h₁
        · exact List.mem_cons_self _ _
        · by_cases hk : k = it.product.shopId
          · exact hk ▸ List.mem_cons_self _ _
          · apply List.mem_cons_of_mem
            refine (ih _).mpr ⟨h₁, ?_⟩
            intro hc
            rcases List.mem_cons.mp hc with h' | h'
            · exact hk h'
            · exact h₂ h'

lemma newKeys_nodup :
    ∀ (l : List ShoppingListItem) (dom : List String), (newKeys l dom).Nodup := by
  intro l
  induction l with
  | nil => intro dom; simp [newKeys]
  | cons it rest ih =>
    intro dom
    rw [newKeys]
    by_cases hm : it.product.shopId ∈ dom
    · rw [if_pos hm]; exact ih dom
    · rw [if_neg hm]
      refine List.nodup_cons.mpr ⟨?_, ih _⟩
      intro hc
      exact newKeys_not_mem rest _ hc (List.mem_cons_self _ _)

lemma extendEntry_nil (kv : String × ShopData) : extendEntry [] kv = kv := by
  obtain ⟨k, sd⟩ := kv
  cases sd
  simp [extendEntry, itemsOfShop_nil, expectedSum_nil, actualSum_nil]

/-- The branch on the bought status collapses to one record update
with the per-item actual contribution (zero when not bought). -/
lemma applyItem_eq (item : ShoppingListItem) (sd : ShopData) :
    applyItem item sd =
      { sd with
        items := sd.items ++ [formatItem item]
        expectedTotal := sd.expectedTotal + item.product.price
        actualTotal := sd.actualTotal + itemContribution item } := by
  by_cases h : item.status = "bought" <;>
    simp [applyItem, itemContribution, h]

lemma extendEntry_cons_self (it : ShoppingListItem)
    (rest : List ShoppingListItem) (sd : ShopData) :
    extendEntry rest (it.product.shopId, applyItem it sd) =
      extendEntry (it :: rest) (it.product.shopId, sd) := by
  rw [applyItem_eq]
  simp [extendEntry, itemsOfShop_cons, expectedSum_cons,
    actualSum_cons, add_assoc, List.append_assoc]

lemma extendEntry_cons_other {it : ShoppingListItem} {kv : String × ShopData}
    (rest : List ShoppingListItem) (h : kv.1 ≠ it.product.shopId) :
    extendEntry (it :: rest) kv = extendEntry rest kv := by
  simp [extendEntry, itemsOfShop_cons, Ne.symm h]

lemma extendEntry_new (it : ShoppingListItem) (rest : List ShoppingListItem) :
    extendEntry rest (it.product.shopId,
        applyItem it { shop := it.product.shop, items := [],
                       expectedTotal := 0, actualTotal := 0 }) =
      (it.product.shopId, specGroup it.product.shopId (it :: rest)) := by
  rw [applyItem_eq]
  simp [extendEntry, specGroup, itemsOfShop_cons, expectedSum_cons,
    actualSum_cons, firstShopFor, List.find?_cons]

lemma specGroup_cons_other {k : String} {it : ShoppingListItem}
    (rest : List ShoppingListItem) (h : k ≠ it.product.shopId) :
    specGroup k (it :: rest) = specGroup k rest := by
  have hb : (it.product.shopId == k) = false := by
    simp [Ne.symm h]
  simp [specGroup, itemsOfShop_cons, Ne.symm h, firstShopFor, List.find?_cons, hb]

lemma processItems_expected (items : List ShoppingListItem) :
    ∀ st : LoopState,
      (processItems items st).overallExpectedTotal =
        st.overallExpectedTotal + expectedSum items := by
  induction items with
  | nil => intro st; simp [processItems, expectedSum_nil]
  | cons it rest ih =>
    intro st
    rw [processItems, ih, processItem, expectedSum_cons]
    simp [add_assoc]

lemma processItems_actual (items : List ShoppingListItem) :
    ∀ st : LoopState,
      (processItems items st).overallActualTotal =
        st.overallActualTotal + actualSum items := by
  induction items with
  | nil => intro st; simp [processItems, actualSum_nil]
  | cons it rest ih =>
    intro st
    rw [processItems, ih, processItem, actualSum_cons]
    by_cases h : it.status = "bought" <;>
      simp [itemContribution, h, add_assoc]

lemma processItems_map (items : List ShoppingListItem) :
    ∀ st : LoopState,
      (processItems items st).itemsByShop =
        st.itemsByShop.map (extendEntry items) ++
          (newKeys items (st.itemsByShop.map Prod.fst)).map
            (fun k => (k, specGroup k items)) := by
  induction items with
  | nil =>
    intro st
    simp only [processItems, newKeys, List.map_nil, List.append_nil]
    rw [List.map_congr_left (fun kv _ => extendEntry_nil kv)]
    simp
  | cons it rest ih =>
    intro st
    rw [processItems, ih]
    by_cases hhas : mapHas st.itemsByShop it.product.shopId
    · -- the key is already present: the new-entry branch is skipped
      have hmem : it.product.shopId ∈ st.itemsByShop.map Prod.fst :=
        (mapHas_iff _ _).mp hhas
      have hmap : (processItem st it).itemsByShop =
          mapUpdate st.itemsByShop it.product.shopId (applyItem it) := by
        rw [processItem]
        simp [hhas]
      rw [hmap, mapUpdate_fst]
      congr 1
      · -- existing entries absorb the new item via extendEntry
        rw [mapUpdate, List.map_map]
        apply List.map_congr_left
        intro kv _
        by_cases hk : kv.1 = it.product.shopId
        · obtain ⟨k, sd⟩ := kv
          simp only at hk
          subst hk
          simp only [Function.comp_apply, if_pos rfl]
          exact extendEntry_cons_self it rest sd
        · simp only [Function.comp_apply, if_neg hk]
          exact (extendEntry_cons_other rest hk).symm
      · -- the first-appearance keys are unchanged
        rw [newKeys, if_pos hmem]
        apply List.map_congr_left
        intro k hk
        have : k ≠ it.product.shopId := by
          intro he
          exact newKeys_not_mem rest _ hk (he ▸ hmem)
        rw [specGroup_cons_other rest this]
    · -- first sight of the key: a fresh group is appended
      have hmem : it.product.shopId ∉ st.itemsByShop.map Prod.fst := by
        intro hc
        exact hhas ((mapHas_iff _ _).mpr hc)
      have hmap : (processItem st it).itemsByShop =
          st.itemsByShop ++
            [(it.product.shopId,
              applyItem it { shop := it.product.shop, items := [],
                             expectedTotal := 0, actualTotal := 0 })] := by
        rw [processItem]
        simp only [hhas, Bool.false_eq_true, if_false, mapUpdate_append]
        rw [mapUpdate_of_not_mem (applyItem it) hmem]
        simp [mapUpdate]
      rw [hmap]
      rw [show (st.itemsByShop ++
          [(it.product.shopId,
            applyItem it { shop := it.product.shop, items := [],
                           expectedTotal := 0, actualTotal := 0 })]).map Prod.fst =
          st.itemsByShop.map Prod.fst ++ [it.product.shopId] by simp]
      rw [List.map_append, newKeys, if_neg hmem, List.map_cons]
      rw [List.append_assoc]
      congr 1
      · -- existing entries do not see the new item
        apply List.map_congr_left
        intro kv hkv
        have : kv.1 ≠ it.product.shopId := by
          intro he
          exact hmem (he ▸ List.mem_map_of_mem Prod.fst hkv)
        exact (extendEntry_cons_other rest this).symm
      · -- the fresh entry becomes the specified group of the key
        rw [extendEntry_new it rest]
        simp only [List.map_nil, List.nil_append]
        rw [List.map_cons, List.singleton_append]
        congr 1
        rw [newKeys_congr rest (st.itemsByShop.map Prod.fst ++ [it.product.shopId])
            (it.product.shopId :: st.itemsByShop.map Prod.fst)
            (fun x => by simp [List.mem_append, List.mem_cons, or_comm])]
        apply List.map_congr_left
        intro k hk
        have hne : k ≠ it.product.shopId := by
          intro he
          exact newKeys_not_mem rest _ hk (he ▸ List.mem_cons_self _ _)
        rw [specGroup_cons_other rest hne]

/-- The groups of the response are the first-appearance shop keys, each
finalized from the group the specification assigns to its key. -/
lemma aggregate_itemsByShop (items : List ShoppingListItem) :
    (aggregate items).itemsByShop =
      (shopKeys items).map (fun k => finalizeGroup (specGroup k items)) := by
  simp only [aggregate]
  rw [processItems_map]
  simp only [List.map_nil, List.nil_append, List.map_map, shopKeys]
  rfl

lemma aggregate_expected (items : List ShoppingListItem) :
    (aggregate items).overallExpectedTotal = round2 (expectedSum items) := by
  simp only [aggregate]
  rw [processItems_expected]
  norm_num

lemma aggregate_actual (items : List ShoppingListItem) :
    (aggregate items).overallActualTotal = round2 (actualSum items) := by
  simp only [aggregate]
  rw [processItems_actual]
  norm_num

lemma aggregate_totalItems (items : List ShoppingListItem) :
    (aggregate items).totalItems = items.length := rfl

lemma sum_map_add {α : Type} (f g : α → ℕ) (l : List α) :
    (l.map (fun a => f a + g a)).sum = (l.map f).sum + (l.map g).sum := by
  induction l with
  | nil => rfl
  | cons a l ih => simp [ih]; omega

lemma sum_indicator_zero (x : String) (keys : List String) (h : x ∉ keys) :
    (keys.map (fun k => if x = k then (1 : ℕ) else 0)).sum = 0 := by
  induction keys with
  | nil => rfl
  | cons k keys ih =>
    have hx : x ≠ k := fun he => h (he ▸ List.mem_cons_self _ _)
    simp only [List.map_cons, List.sum_cons, if_neg hx, zero_add]
    exact ih (fun hc => h (List.mem_cons_of_mem _ hc))

lemma sum_indicator_one (x : String) (keys : List String) (hnd : keys.Nodup)
    (hx : x ∈ keys) :
    (keys.map (fun k => if x = k then (1 : ℕ) else 0)).sum = 1 := by
  induction keys with
  | nil => simp at hx
  | cons k keys ih =>
    rcases List.mem_cons.mp hx with rfl | hmem
    · simp only [List.map_cons, List.sum_cons, if_pos rfl]
      rw [sum_indicator_zero x keys (List.nodup_cons.mp hnd).1]
      simp
    · have hx : x ≠ k := by
        intro he
        exact (List.nodup_cons.mp hnd).1 (he ▸ hmem)
      simp only [List.map_cons, List.sum_cons, if_neg hx, zero_add]
      exact ih (List.nodup_cons.mp hnd).2 hmem

/-- A nodup key list covering all shop identifiers splits the item
count: the group sizes add up to the input length. -/
lemma sum_group_sizes (items : List ShoppingListItem) :
    ∀ keys : List String, keys.Nodup →
      (∀ it ∈ items, it.product.shopId ∈ keys) →
      (keys.map (fun k => (itemsOfShop k items).length)).sum = items.length := by
  induction items with
  | nil =>
    intro keys _ _
    simp [itemsOfShop_nil]
  | cons it rest ih =>
    intro keys hnd hcov
    have hlen : ∀ k, (itemsOfShop k (it :: rest)).length =
        (if it.product.shopId = k then (1 : ℕ) else 0) +
          (itemsOfShop k rest).length := by
      intro k
      rw [itemsOfShop_cons]
      by_cases h : it.product.shopId = k
      · simp [h]
        omega
      · simp [h]
    rw [List.map_congr_left (fun k _ => hlen k), sum_map_add,
      sum_indicator_one _ _ hnd (hcov it (List.mem_cons_self _ _)),
      ih keys hnd (fun x hx => hcov x (List.mem_cons_of_mem _ hx))]
    simp [Nat.add_comm]

lemma shopKeys_nodup (items : List ShoppingListItem) : (shopKeys items).Nodup :=
  newKeys_nodup items []

lemma mem_shopKeys {items : List ShoppingListItem} {it : ShoppingListItem}
    (h : it ∈ items) : it.product.shopId ∈ shopKeys items := by
  rw [shopKeys, mem_newKeys]
  exact ⟨List.mem_map_of_mem _ h, List.not_mem_nil _⟩

/-! ## Concrete aggregate computations -/

lemma roundingItems_expectedSum : expectedSum roundingItems = 666 / 100 := by
  simp [expectedSum, roundingItems, mkItem]
  norm_num

lemma roundingItems_actualSum : actualSum roundingItems = 666 / 100 := by
  simp [actualSum, boughtItems, boughtContribution, roundingItems, mkItem]
  norm_num

lemma roundingItems_overallExpected :
    (aggregate roundingItems).overallExpectedTotal = 666 / 100 := by
  rw [aggregate_expected, roundingItems_expectedSum,
    show (666 / 100 : ℚ) = ((666 : ℤ) : ℚ) / 100 by norm_num,
    round2_two_decimals]

lemma roundingItems_overallActual :
    (aggregate roundingItems).overallActualTotal = 666 / 100 := by
  rw [aggregate_actual, roundingItems_actualSum,
    show (666 / 100 : ℚ) = ((666 : ℤ) : ℚ) / 100 by norm_num,
    round2_two_decimals]

lemma mixedItems_overallExpected :
    (aggregate mixedItems).overallExpectedTotal = 9 := by
  have h : expectedSum mixedItems = 9 := by
    simp [expectedSum, mixedItems, mkItem]
    norm_num
  rw [aggregate_expected, h, round2_eq_self 900 (by norm_num)]

lemma mixedItems_overallActual :
    (aggregate mixedItems).overallActualTotal = 2 := by
  have h : actualSum mixedItems = 2 := by
    simp [actualSum, boughtItems, boughtContribution, mixedItems, mkItem]
  rw [aggregate_actual, h, round2_eq_self 200 (by norm_num)]

/-! ## Claim theorems -/

/-- C1: an item contributes to its shop group actualTotal and to
overallActualTotal exactly when its status equals the string bought;
the contributed amount is its actualPrice when non-null, else its
productPrice; every other status string, recognized or not, contributes
nothing to the actual totals. -/
theorem claim_actual_totals_bought_only (items : List ShoppingListItem) :
    (aggregate items).overallActualTotal =
      round2 (((items.filter (fun it => it.status == "bought")).map
        (fun it => match it.actualPrice with
          | some a => a
          | none => it.product.price)).sum) ∧
    (aggregate items).itemsByShop.map (fun g => g.actualTotal) =
      (shopKeys items).map (fun k => round2 (actualSum (itemsOfShop k items))) := by
  constructor
  · rw [aggregate_actual]
    rfl
  · rw [aggregate_itemsByShop, List.map_map]
    rfl

/-- C6: each item adds its productPrice to its group expectedTotal and
to overallExpectedTotal unconditionally, regardless of status: each
group expectedTotal is the rounded sum of productPrice over the items
of its shop, and overallExpectedTotal is the rounded sum over all input
items; in particular the mixed-status items priced 2.00 bought, 3.00
pending and 4.00 not bought give overall expected 9.00 and overall
actual 2.00. -/
theorem claim_expected_totals_unconditional (items : List ShoppingListItem) :
    ((aggregate items).overallExpectedTotal =
      round2 ((items.map (fun it => it.product.price)).sum) ∧
    (aggregate items).itemsByShop.map (fun g => g.expectedTotal) =
      (shopKeys items).map (fun k => round2 (expectedSum (itemsOfShop k items)))) ∧
    (aggregate mixedItems).overallExpectedTotal = 9 ∧
    (aggregate mixedItems).overallActualTotal = 2 := by
  refine ⟨⟨?_, ?_⟩, mixedItems_overallExpected, mixedItems_overallActual⟩
  · rw [aggregate_expected]
    rfl
  · rw [aggregate_itemsByShop, List.map_map]
    rfl

/-- C4: every reported total is the two-decimal rounding applied once,
at the end, to the exact accumulated sum (never rounded per item); the
three bought items priced 1.11, 2.22 and 3.33 with no actualPrice give
overallExpectedTotal and overallActualTotal both exactly 6.66. -/
theorem claim_totals_rounded_once (items : List ShoppingListItem) :
    ((aggregate items).overallExpectedTotal = round2 (expectedSum items) ∧
    (aggregate items).overallActualTotal = round2 (actualSum items) ∧
    (aggregate items).itemsByShop.map (fun g => g.expectedTotal) =
      (shopKeys items).map (fun k => round2 (expectedSum (itemsOfShop k items))) ∧
    (aggregate items).itemsByShop.map (fun g => g.actualTotal) =
      (shopKeys items).map (fun k => round2 (actualSum (itemsOfShop k items)))) ∧
    (aggregate roundingItems).overallExpectedTotal = 666 / 100 ∧
    (aggregate roundingItems).overallActualTotal = 666 / 100 := by
  refine ⟨⟨aggregate_expected items, aggregate_actual items, ?_, ?_⟩,
    roundingItems_overallExpected, roundingItems_overallActual⟩
  · rw [aggregate_itemsByShop, List.map_map]
    rfl
  · rw [aggregate_itemsByShop, List.map_map]
    rfl

/-- C5: aggregate partitions the items by shop identifier: the groups
follow the first-appearance order of the shop keys, each group carries
exactly the (formatted) input items of its shop in input order, each
itemCount is the length of the group item list, the group sizes sum to
the input length, and totalItems is the input length. -/
theorem claim_partition_by_shop (items : List ShoppingListItem) :
    (aggregate items).itemsByShop.map (fun g => g.items) =
      (shopKeys items).map (fun k => (itemsOfShop k items).map formatItem) ∧
    (aggregate items).itemsByShop.map (fun g => g.itemCount) =
      (aggregate items).itemsByShop.map (fun g => g.items.length) ∧
    ((aggregate items).itemsByShop.map (fun g => g.itemCount)).sum =
      items.length ∧
    (aggregate items).totalItems = items.length := by
  refine ⟨?_, ?_, ?_, rfl⟩
  · rw [aggregate_itemsByShop, List.map_map]
    rfl
  · rw [aggregate_itemsByShop, List.map_map, List.map_map]
    rfl
  · rw [aggregate_itemsByShop, List.map_map]
    have : ((shopKeys items).map
        ((fun g => g.itemCount) ∘ fun k => finalizeGroup (specGroup k items))) =
        (shopKeys items).map (fun k => (itemsOfShop k items).length) := by
      apply List.map_congr_left
      intro k _
      simp [finalizeGroup, specGroup]
    rw [this]
    exact sum_group_sizes items (shopKeys items) (shopKeys_nodup items)
      (fun it hit => mem_shopKeys hit)

/-- C9: each group displays the shop record attached to the first item
of its key; a later item with the same shop identifier but a different
shop record does not change the group shop fields. -/
theorem claim_group_shop_from_first_item (items : List ShoppingListItem) :
    (aggregate items).itemsByShop.map (fun g => g.shop) =
      (shopKeys items).map (fun k => firstShopFor k items) ∧
    (∀ i₁ i₂ : ShoppingListItem, i₁.product.shopId = i₂.product.shopId →
      (aggregate [i₁, i₂]).itemsByShop.map (fun g => g.shop) =
        [i₁.product.shop]) := by
  constructor
  · rw [aggregate_itemsByShop, List.map_map]
    rfl
  · intro i₁ i₂ h
    rw [aggregate_itemsByShop]
    have hk : shopKeys [i₁, i₂] = [i₁.product.shopId] := by
      rw [shopKeys, newKeys, if_neg (List.not_mem_nil _), newKeys,
        if_pos (by rw [← h]; exact List.mem_cons_self _ _), newKeys]
    rw [hk, List.map_cons, List.map_nil, List.map_cons, List.map_nil]
    have hshop : firstShopFor i₁.product.shopId [i₁, i₂] = i₁.product.shop := by
      rw [firstShopFor, List.find?_cons_of_pos _ (by simp)]
      rfl
    simp [finalizeGroup, specGroup, hshop]

/-- Witness for C9 at two concrete items sharing a shop identifier but
carrying different shop records: the group keeps the first record. -/
theorem claim_group_shop_from_first_item_witness :
    (aggregate [mkItem demoShop "shop-1" 2 "pending" none,
                mkItem demoShopB "shop-1" 3 "pending" none]).itemsByShop.map
        (fun g => g.shop) =
      [(mkItem demoShop "shop-1" 2 "pending" none).product.shop] :=
  (claim_group_shop_from_first_item []).2
    (mkItem demoShop "shop-1" 2 "pending" none)
    (mkItem demoShopB "shop-1" 3 "pending" none) rfl

/-- C7: the normalizer parses the trimmed size as a decimal amount,
optional whitespace and a unit token consumed to the end of the string
and matched case-insensitively; the recognized units convert by the
fixed factors (kg by one, g by a thousandth, mg by a millionth, l by
one, ml by a thousandth, every count token by one); any other token
yields null; and the worked examples hold exactly. -/
theorem claim_size_parsing_and_conversion :
    calculatePricePerUnit (some "1kg") (.num (.fin (5 / 2))) = some (.fin (5 / 2)) ∧
    calculatePricePerUnit (some "500g") (.num (.fin (6 / 5))) = some (.fin (12 / 5)) ∧
    calculatePricePerUnit (some "500ml") (.num (.fin (9 / 5))) = some (.fin (18 / 5)) ∧
    calculatePricePerUnit (some "6 pieces") (.num (.fin (18 / 5))) = some (.fin (3 / 5)) ∧
    calculatePricePerUnit (some "1.5kg") (.num (.fin (15 / 4))) = some (.fin (5 / 2)) ∧
    (∀ p, calculatePricePerUnit (some "invalid") p = none) ∧
    calculatePricePerUnit (some "1KG") (.num (.fin (5 / 2))) =
      calculatePricePerUnit (some "1kg") (.num (.fin (5 / 2))) ∧
    (∀ a : ℚ, normalizedAmountOf "kg" a = some a) ∧
    (∀ a : ℚ, normalizedAmountOf "g" a = some (a / 1000)) ∧
    (∀ a : ℚ, normalizedAmountOf "mg" a = some (a / 1000000)) ∧
    (∀ a : ℚ, normalizedAmountOf "l" a = some a) ∧
    (∀ a : ℚ, normalizedAmountOf "ml" a = some (a / 1000)) ∧
    (∀ (a : ℚ) (u : String), u ∈ countTokens → normalizedAmountOf u a = some a) ∧
    (∀ (s : String) (p : PriceInput) (ip fp rest : List Char),
      sizeParts s = some (ip, fp, rest) →
      String.mk (rest.map jsToLower) ∉ unitTokens →
      calculatePricePerUnit (some s) p = none) ∧
    (∀ (s : String) (q : ℚ), 0 < q →
      calculatePricePerUnit (some s) (.num (.fin q)) =
        match matchSize s with
        | none => none
        | some (a, u) =>
            match normalizedAmountOf u a with
            | none => none
            | some na => if na ≤ 0 then none else some (.fin (round2 (q / na)))) := by
  refine ⟨calc_ex_1kg, calc_ex_500g, calc_ex_500ml, calc_ex_6pieces,
    calc_ex_decimal_amount, ?_, ?_, ?_, ?_, ?_, ?_, ?_, ?_, ?_, ?_⟩
  · intro p
    exact calculatePricePerUnit_of_matchSize_none (by rfl) p
  · rw [calc_ex_uppercase, calc_ex_1kg]
  · intro a; rfl
  · intro a; rfl
  · intro a; rfl
  · intro a; rfl
  · intro a; rfl
  · intro a u hu
    simp only [countTokens, List.mem_cons, List.not_mem_nil, or_false] at hu
    rcases hu with rfl | rfl | rfl | rfl | rfl | rfl | rfl | rfl | rfl | rfl | rfl <;> rfl
  · intro s p ip fp rest hsp hnot
    exact calculatePricePerUnit_of_matchSize_none
      (matchSize_none_of_not_token hsp hnot) p
  · intro s q h
    exact calculatePricePerUnit_pos_price s h

/-- Witness for C7 at concrete inputs: the general pipeline equation at
size 6 st with price 3, and the count-token rule at stk. -/
theorem claim_size_parsing_and_conversion_witness :
    calculatePricePerUnit (some "6 st") (.num (.fin 3)) = some (.fin (1 / 2)) ∧
    normalizedAmountOf "stk" 7 = some 7 := by
  constructor
  · have h := claim_size_parsing_and_conversion.2.2.2.2.2.2.2.2.2.2.2.2.2.2
      "6 st" 3 (by norm_num)
    rw [h]
    have hd : decimalValue ['6'] [] = 6 := by
      rw [decimalValue, show digitsToNat ['6'] = 6 from rfl,
          show digitsToNat ([] : List Char) = 0 from rfl]
      norm_num
    have hm : matchSize "6 st" = some ((6 : ℚ), "st") := by
      rw [show matchSize "6 st" = some (decimalValue ['6'] [], "st") from rfl, hd]
    simp only [hm, show normalizedAmountOf "st" (6 : ℚ) = some 6 from rfl]
    rw [if_neg (by norm_num : ¬ ((6 : ℚ) ≤ 0)), round2_eq_self 50 (by norm_num)]
    norm_num
  · exact claim_size_parsing_and_conversion.2.2.2.2.2.2.2.2.2.2.2.2.1 7 "stk"
      (by simp [countTokens])

/-- C10: the amount must be one or more digits optionally followed by a
point and further digits: a leading sign, a leading point, a comma
separator or a trailing point yields null for every price, while 0.5kg
is accepted. -/
theorem claim_amount_lexical_rules :
    (∀ p, calculatePricePerUnit (some "+1kg") p = none) ∧
    (∀ p, calculatePricePerUnit (some "-1kg") p = none) ∧
    (∀ p, calculatePricePerUnit (some ".5kg") p = none) ∧
    (∀ p, calculatePricePerUnit (some "1,5kg") p = none) ∧
    (∀ p, calculatePricePerUnit (some "1.kg") p = none) ∧
    calculatePricePerUnit (some "0.5kg") (.num (.fin 1)) = some (.fin 2) := by
  refine ⟨?_, ?_, ?_, ?_, ?_, calc_ex_half_kg⟩ <;>
    exact fun p => calculatePricePerUnit_of_matchSize_none (by rfl) p

/-- C8: the function is total (the never-throws contract) and returns
null when size is null or undefined (none), empty, or trims to empty,
and when the price is zero, negative or negative infinity or NaN. -/
theorem claim_invalid_inputs_yield_null :
    (∀ p, calculatePricePerUnit none p = none) ∧
    (∀ p, calculatePricePerUnit (some "") p = none) ∧
    (∀ (s : String) (p : PriceInput), jsTrim s = "" →
      calculatePricePerUnit (some s) p = none) ∧
    (∀ (sz : Option String) (q : ℚ), q ≤ 0 →
      calculatePricePerUnit sz (.num (.fin q)) = none) ∧
    (∀ sz, calculatePricePerUnit sz (.num .negInf) = none) ∧
    (∀ sz, calculatePricePerUnit sz (.num .nan) = none) := by
  refine ⟨fun p => rfl, ?_, ?_, ?_, ?_, ?_⟩
  · intro p
    simp [calculatePricePerUnit]
  · intro s p h
    simp [calculatePricePerUnit, h]
  · intro sz q h
    apply calculatePricePerUnit_invalidPrice
    simp [toPriceNum, jsIsNaN, jsNonPos, h]
  · intro sz
    exact calculatePricePerUnit_invalidPrice (by rfl) sz
  · intro sz
    exact calculatePricePerUnit_invalidPrice (by rfl) sz

/-- Witness for C8 at concrete inputs: whitespace-only size, and a zero
price with a well-formed size. -/
theorem claim_invalid_inputs_yield_null_witness :
    calculatePricePerUnit (some "   ") (.num (.fin 1)) = none ∧
    calculatePricePerUnit (some "1kg") (.num (.fin 0)) = none :=
  ⟨claim_invalid_inputs_yield_null.2.2.1 "   " (.num (.fin 1)) (by decide),
   claim_invalid_inputs_yield_null.2.2.2.1 (some "1kg") 0 le_rfl⟩

/-- C2 fails as stated: the two-decimal rounding of a tiny positive
unit price is zero, a non-null result that is not strictly positive;
1000 count units at price 1 give exactly 0. -/
theorem claim_positive_invariant_counterexample :
    calculatePricePerUnit (some "1000x") (.num (.fin 1)) = some (.fin 0) ∧
    ¬ (∀ (s : String) (p : PriceInput) (q : ℚ),
        calculatePricePerUnit (some s) p = some (.fin q) → 0 < q) := by
  refine ⟨calc_ex_tiny_unit_price, fun hall => ?_⟩
  exact lt_irrefl 0 (hall _ _ _ calc_ex_tiny_unit_price)

/-- C2 amended: a non-null finite result of a finite price is the
rounded exact unit price, hence nonnegative, and it is strictly
positive exactly when the exact unit price is at least 0.005; smaller
positive unit prices round to zero. -/
theorem claim_result_nonneg_pos_iff {s : String} {q r : ℚ}
    (h : calculatePricePerUnit (some s) (.num (.fin q)) = some (.fin r)) :
    0 ≤ r ∧ ∃ a u na, matchSize s = some (a, u) ∧
      normalizedAmountOf u a = some na ∧ 0 < na ∧ 0 < q ∧
      r = round2 (q / na) ∧ (0 < r ↔ 1 / 200 ≤ q / na) := by
  obtain ⟨s', a, u, na, hs, hm, hn, hna, hb, hr⟩ :=
    calculatePricePerUnit_some_inv h
  obtain rfl : s' = s := (Option.some_inj.mp hs).symm
  have hq : 0 < q := by
    simp only [toPriceNum, jsIsNaN, jsNonPos, Bool.or_eq_false_iff,
      decide_eq_false_iff_not, not_le] at hb
    exact hb.2
  have hr' : r = round2 (q / na) := by
    simpa [toPriceNum, jsDivByPos, jsToFixed2Num] using hr
  subst hr'
  refine ⟨round2_nonneg (le_of_lt (div_pos hq hna)), a, u, na, hm, hn, hna,
    hq, rfl, round2_pos_iff _⟩

/-- Witness for the amended C2 at the 1kg example. -/
theorem claim_result_nonneg_pos_iff_witness :
    0 ≤ (5 / 2 : ℚ) ∧ ∃ a u na, matchSize "1kg" = some (a, u) ∧
      normalizedAmountOf u a = some na ∧ 0 < na ∧ 0 < (5 / 2 : ℚ) ∧
      (5 / 2 : ℚ) = round2 ((5 / 2) / na) ∧
      (0 < (5 / 2 : ℚ) ↔ 1 / 200 ≤ (5 / 2) / na) :=
  claim_result_nonneg_pos_iff calc_ex_1kg

/-- C3 fails as stated: a price of positive Infinity is not rejected by
the NaN-or-nonpositive validation, and the division result Infinity is
returned instead of null. -/
theorem claim_price_guard_counterexample :
    calculatePricePerUnit (some "1kg") (.num .posInf) = some JsNum.posInf ∧
    calculatePricePerUnit (some "1kg") (.num .posInf) ≠ none := by
  refine ⟨calc_ex_posInf, ?_⟩
  rw [calc_ex_posInf]
  simp

/-- C3 amended: the price validation rejects exactly NaN, negative
Infinity and nonpositive finite values (in particular every non-numeric
string, which parses to NaN); positive Infinity passes, and with a
finite price every non-null result is finite. -/
theorem claim_price_validation :
    (∀ (sz : Option String) (p : PriceInput),
      (toPriceNum p = .nan ∨ toPriceNum p = .negInf ∨
        ∃ q, toPriceNum p = .fin q ∧ q ≤ 0) →
      calculatePricePerUnit sz p = none) ∧
    (∀ (sz : Option String) (p : PriceInput) (q : ℚ) (r : JsNum),
      toPriceNum p = .fin q → calculatePricePerUnit sz p = some r →
      ∃ x : ℚ, r = .fin x) := by
  constructor
  · intro sz p hp
    apply calculatePricePerUnit_invalidPrice _ sz
    rcases hp with h | h | ⟨q, h, hq⟩ <;> rw [h]
    · rfl
    · rfl
    · simp [jsIsNaN, jsNonPos, hq]
  · intro sz p q r hfin hsome
    obtain ⟨s', a, u, na, _, _, _, _, _, hr⟩ :=
      calculatePricePerUnit_some_inv hsome
    rw [hfin] at hr
    exact ⟨round2 (q / na), by simpa [jsDivByPos, jsToFixed2Num] using hr⟩

/-- Witness for the amended C3: a zero price yields null, and the
non-null 1kg result is finite. -/
theorem claim_price_validation_witness :
    calculatePricePerUnit (some "1kg") (.num (.fin 0)) = none ∧
    ∃ x : ℚ, JsNum.fin (5 / 2) = JsNum.fin x :=
  ⟨claim_price_validation.1 (some "1kg") (.num (.fin 0))
      (Or.inr (Or.inr ⟨0, rfl, le_rfl⟩)),
   claim_price_validation.2 (some "1kg") (.num (.fin (5 / 2))) (5 / 2)
      (JsNum.fin (5 / 2)) rfl calc_ex_1kg⟩

end ShoppingPlanner
